import Mathlib

/-!
Verification development for the AgenticProjectRecommender job-orchestration
and resource-control layer.  The definitions below are shallow embeddings of
the Python sources under `src/`:

* `src/utils/rate_limiter.py`  — `TokenBucket.consume`, `TokenBucket.wait_time`,
  `RateLimiter.acquire` (time is passed explicitly; `time.sleep(w)` is
  modelled by re-invoking `consume` at `now + w`; a `ZeroDivisionError`
  escaping `wait_time` is modelled by `Except.error ()`).
* `src/backend/job_manager.py` — job states, the retention sweep, and a
  small explicit-heap model of Python reference semantics for `get_job`.
* `src/graph/nodes.py`, `src/graph/workflow.py`, `src/backend/main.py` —
  the staged pipeline and the job-store writes it performs.
* `src/agents/skill_gap_analyzer.py` — skill normalization, fuzzy matching
  (a faithful model of `difflib.SequenceMatcher.ratio` for short,
  junk-free sequences) and `analyze_gaps`.
* `src/utils/error_handler.py` — the error taxonomy, `format_error_for_user`
  and the `retry_on_error` decorator.
* `src/utils/cache.py` — `InMemoryCache` and the `cached` decorator.

Machine floats are modelled by exact rationals; `round(x, 1)` is modelled by
round-half-to-even on rationals.
-/

deriving instance DecidableEq for Except

namespace S2P

/-! ## Rate limiter (`src/utils/rate_limiter.py`) -/

/-- State of one `TokenBucket` (`rate`, `per`, `tokens`, `last_update`).
`rate` and `per` are `int`s in the source but participate in rational
arithmetic, so all fields are rationals. -/
structure TokenBucket where
  rate : ℚ
  per : ℚ
  tokens : ℚ
  lastUpdate : ℚ
deriving DecidableEq, Repr

/-- `TokenBucket.consume`: refill from elapsed wall-clock time (capped at
`rate`), then subtract `tokens` if enough are available.  Returns the
success flag together with the updated bucket; `now` is the value
`time.time()` returns during the call. -/
def TokenBucket.consume (b : TokenBucket) (now : ℚ) (tokens : ℚ) :
    Bool × TokenBucket :=
  let elapsed := now - b.lastUpdate
  let refilled := min b.rate (b.tokens + elapsed * b.rate / b.per)
  if tokens ≤ refilled then
    (true, { b with tokens := refilled - tokens, lastUpdate := now })
  else
    (false, { b with tokens := refilled, lastUpdate := now })

/-- `TokenBucket.wait_time`: time until a single token is available.  When
`tokens < 1` the source evaluates `(tokens_needed * per) / rate`, which
raises `ZeroDivisionError` for a bucket with `rate = 0`; that exception is
the `Except.error ()` branch. -/
def TokenBucket.waitTime (b : TokenBucket) : Except Unit ℚ :=
  if 1 ≤ b.tokens then .ok 0
  else if b.rate = 0 then .error ()
  else .ok ((1 - b.tokens) * b.per / b.rate)

/-- Outcome of `RateLimiter.acquire`: the returned boolean, the final bucket
state, and the list of `time.sleep` durations performed (in order). -/
structure AcquireResult where
  granted : Bool
  bucket : TokenBucket
  sleeps : List ℚ
deriving DecidableEq, Repr

/-- `RateLimiter.acquire(service, tokens, wait)`.  `enabled` is
`settings.enable_rate_limiting`; `configured` is `service in self.limiters`.
A first `consume` is attempted at `now`; if it fails and `wait` is set the
caller sleeps `wait_time()` seconds and a second `consume` runs at
`now + w`, whose boolean is returned.  `Except.error ()` is the
`ZeroDivisionError` escaping from `wait_time`. -/
def acquire (enabled configured : Bool) (b : TokenBucket) (now : ℚ)
    (tokens : ℚ) (wait : Bool) : Except Unit AcquireResult :=
  if !enabled then .ok ⟨true, b, []⟩
  else if !configured then .ok ⟨true, b, []⟩
  else
    match b.consume now tokens with
    | (true, b1) => .ok ⟨true, b1, []⟩
    | (false, b1) =>
      if wait then
        match b1.waitTime with
        | .error _ => .error ()
        | .ok w =>
          match b1.consume (now + w) tokens with
          | (g, b2) => .ok ⟨g, b2, [w]⟩
      else .ok ⟨false, b1, []⟩

/-! ## Job store (`src/backend/job_manager.py`) -/

/-- `JobStatus` enumeration. -/
inductive JobStatus where
  | pending
  | processing
  | completed
  | failed
deriving DecidableEq, Repr

/-- `JobState` dataclass.  `result` is the opaque payload, modelled as an
optional string; timestamps are rationals (seconds). -/
structure JobState where
  jobId : String
  status : JobStatus
  progressPercentage : Int
  currentStep : String
  result : Option String
  error : Option String
  createdAt : ℚ
  updatedAt : ℚ
deriving DecidableEq, Repr

/-- The fresh `JobState` inserted by `JobManager.create_job`. -/
def newJobState (id : String) (t : ℚ) : JobState :=
  { jobId := id, status := .pending, progressPercentage := 0,
    currentStep := "Initializing...", result := none, error := none,
    createdAt := t, updatedAt := t }

/-- The ids collected by `_cleanup_old_jobs` (`jobs_to_remove`): jobs whose
status is terminal and whose `updated_at` is strictly before the cutoff. -/
def jobsToRemove (jobs : List (String × JobState)) (cutoff : ℚ) :
    List String :=
  (jobs.filter (fun p =>
    decide (p.2.status ∈ [JobStatus.completed, JobStatus.failed] ∧
      p.2.updatedAt < cutoff))).map Prod.fst

/-- `JobManager._cleanup_old_jobs` (one sweep pass): compute the cutoff
`now - retention`, collect `jobs_to_remove`, delete each of them from the
map (modelled as an association list with unique keys). -/
def cleanupOldJobs (jobs : List (String × JobState)) (now retention : ℚ) :
    List (String × JobState) :=
  let cutoff := now - retention
  let rm := jobsToRemove jobs cutoff
  jobs.filter (fun p => decide (p.1 ∉ rm))

/-! ### Reference semantics of `get_job`

`JobManager.get_job` executes `return self._jobs.get(job_id)` under the
lock: the caller receives the stored `JobState` *object*.  To express what
a caller can do with that object we model the Python heap explicitly: a
heap cell per `JobState` object, and the `_jobs` dict mapping each job id
to the cell (the object reference). -/

/-- The `JobManager`'s mutable state: heap cells (a Python object reference
is an index into `heap`) and the `_jobs` dict mapping ids to references. -/
structure ManagerState where
  heap : List JobState
  jobs : List (String × Nat)
deriving DecidableEq, Repr

/-- A `JobManager` with no jobs. -/
def emptyManager : ManagerState := ⟨[], []⟩

/-- `create_job` (with the generated uuid and current time passed in):
allocate a fresh Pending `JobState` object and bind the id to it. -/
def createJob (s : ManagerState) (id : String) (t : ℚ) : ManagerState :=
  { heap := s.heap ++ [newJobState id t],
    jobs := s.jobs ++ [(id, s.heap.length)] }

/-- `get_job`: `self._jobs.get(job_id)` — returns the object *reference*
(no copy is taken), or `none` when the id is unknown. -/
def getJob (s : ManagerState) (id : String) : Option Nat :=
  (s.jobs.find? (fun p => p.1 == id)).map Prod.snd

/-- Dereference an object reference: observe the fields of the returned
`JobState` object. -/
def readRef (s : ManagerState) (r : Nat) : Option JobState :=
  s.heap.get? r

/-- A caller mutating the object it got back from `get_job` (e.g.
`job.progress_percentage = 55`), outside the store's API and lock. -/
def mutateRef (s : ManagerState) (r : Nat) (f : JobState → JobState) :
    ManagerState :=
  match s.heap.get? r with
  | some v => { s with heap := s.heap.set r (f v) }
  | none => s

/-- The job state a subsequent `get_job` + field read observes. -/
def observeJob (s : ManagerState) (id : String) : Option JobState :=
  (getJob s id).bind (readRef s)

/-! ## Error taxonomy (`src/utils/error_handler.py`) -/

/-- The `RecommenderException` hierarchy: `CVParsingError`,
`JobAnalysisError`, `SkillGapAnalysisError`, `ProjectRecommendationError`,
`APIError`, `RateLimitError`, `ConfigurationError`, plus a case for an
exception outside the hierarchy. -/
inductive RecError where
  | cvParsing (message : String)
  | jobAnalysis (message : String)
  | skillGapAnalysis (message : String)
  | projectRecommendation (message : String)
  | api (apiName : String) (message : String)
  | rateLimit (apiName : String) (retryAfter : Option Int)
  | configuration (message : String)
  | recommender (message : String)
  | unexpected (message : String)
deriving DecidableEq, Repr

/-- `format_error_for_user`: each branch mirrors the corresponding
`isinstance` branch of the source.  `SkillGapAnalysisError` and
`ProjectRecommendationError` fall through to the generic
`RecommenderException` branch, as in the source. -/
def formatErrorForUser : RecError → String
  | .cvParsing m =>
      "❌ Failed to parse CV: " ++ m ++
      ". Please ensure the file is a valid PDF or DOCX."
  | .jobAnalysis m =>
      "❌ Failed to analyze job description: " ++ m ++
      ". Please check the job description text."
  | .rateLimit apiName (some ra) =>
      "⏱️ API rate limit exceeded for " ++ apiName ++ "." ++
      " Please wait " ++ toString ra ++ " seconds."
  | .rateLimit apiName none =>
      "⏱️ API rate limit exceeded for " ++ apiName ++ "."
  | .api apiName m =>
      "🌐 API error (" ++ apiName ++ "): " ++ m ++ ". Please try again later."
  | .configuration m =>
      "⚙️ Configuration error: " ++ m ++ ". Please check your settings."
  | .skillGapAnalysis m => "❌ Error: " ++ m
  | .projectRecommendation m => "❌ Error: " ++ m
  | .recommender m => "❌ Error: " ++ m
  | .unexpected m =>
      "❌ An unexpected error occurred: " ++ m ++ ". Please try again."

/-- Python's `sep.join(list)`. -/
def pyJoin (sep : String) : List String → String
  | [] => ""
  | [x] => x
  | x :: xs => x ++ sep ++ pyJoin sep xs

/-! ## Pipeline (`src/graph/nodes.py`, `src/graph/workflow.py`,
`src/backend/main.py`) -/

/-- The LangGraph `WorkflowState` dict.  The structured payloads produced
by the agents (`cv_data`, `job_requirements`, …) are opaque to the graph
logic and modelled as strings. -/
structure WorkflowState where
  cvData : Option String
  jobRequirements : Option String
  skillMatchAnalysis : Option String
  recommendationResult : Option String
  errors : List String
  currentStep : String
  progressPercentage : Int
deriving DecidableEq, Repr

/-- The initial state built by `run_workflow`. -/
def initialWorkflowState : WorkflowState :=
  { cvData := none, jobRequirements := none, skillMatchAnalysis := none,
    recommendationResult := none, errors := [],
    currentStep := "Starting...", progressPercentage := 0 }

/-- `parse_cv_node`.  The agent call `cv_parser.parse_cv(...)` is the
external collaborator; its outcome (`.ok data` or a raised exception) is
the parameter `o`.  On an exception the node appends
`format_error_for_user(e)` to the error list and returns normally. -/
def parseCvNode (o : Except RecError String) (s : WorkflowState) :
    WorkflowState :=
  let s := { s with currentStep := "Parsing CV...", progressPercentage := 10 }
  match o with
  | .ok d => { s with cvData := some d, progressPercentage := 25 }
  | .error e => { s with errors := s.errors ++ [formatErrorForUser e] }

/-- `analyze_job_node` (progress checkpoints 30/45). -/
def analyzeJobNode (o : Except RecError String) (s : WorkflowState) :
    WorkflowState :=
  let s := { s with currentStep := "Analyzing job description...",
                    progressPercentage := 30 }
  match o with
  | .ok d => { s with jobRequirements := some d, progressPercentage := 45 }
  | .error e => { s with errors := s.errors ++ [formatErrorForUser e] }

/-- `identify_gaps_node` (progress checkpoints 50/60): raises
`ValueError("Missing CV data or job requirements")` — caught by its own
handler — when an upstream payload is absent. -/
def identifyGapsNode (o : Except RecError String) (s : WorkflowState) :
    WorkflowState :=
  let s := { s with currentStep := "Identifying skill gaps...",
                    progressPercentage := 50 }
  if s.cvData = none ∨ s.jobRequirements = none then
    { s with errors := s.errors ++
        [formatErrorForUser (.unexpected "Missing CV data or job requirements")] }
  else
    match o with
    | .ok d => { s with skillMatchAnalysis := some d, progressPercentage := 60 }
    | .error e => { s with errors := s.errors ++ [formatErrorForUser e] }

/-- `generate_recommendations_node` (progress checkpoint 65, then 100 and
`current_step = "Complete!"` on success). -/
def generateRecommendationsNode (o : Except RecError String)
    (s : WorkflowState) : WorkflowState :=
  let s := { s with currentStep := "Generating project recommendations...",
                    progressPercentage := 65 }
  if s.cvData = none ∨ s.jobRequirements = none then
    { s with errors := s.errors ++
        [formatErrorForUser (.unexpected "Missing CV data or job requirements")] }
  else
    match o with
    | .ok d => { s with recommendationResult := some d,
                        currentStep := "Complete!", progressPercentage := 100 }
    | .error e => { s with errors := s.errors ++ [formatErrorForUser e] }

/-- `error_handler_node`: sets `current_step = "Error occurred"` and resets
`progress_percentage` to 0; performs no further work. -/
def errorHandlerNode (s : WorkflowState) : WorkflowState :=
  { s with currentStep := "Error occurred", progressPercentage := 0 }

/-- Result of `should_continue`. -/
inductive Route where
  | next
  | error
  | done
deriving DecidableEq, Repr

/-- `should_continue`: route to the error handler when the error list is
non-empty, end when a recommendation result is present, else continue. -/
def shouldContinue (s : WorkflowState) : Route :=
  if s.errors.length > 0 then .error
  else if s.recommendationResult.isSome then .done
  else .next

/-- The compiled graph of `create_workflow`, driven on the four agent-call
outcomes `o1..o4`: entry point `parse_cv`, conditional edges via
`should_continue` after every node, `error_handler → END`.  Returns the
final state together with the list of node names executed. -/
def runWorkflowModel (o1 o2 o3 o4 : Except RecError String) :
    WorkflowState × List String :=
  let s1 := parseCvNode o1 initialWorkflowState
  match shouldContinue s1 with
  | .error => (errorHandlerNode s1, ["parse_cv", "error_handler"])
  | .done => (s1, ["parse_cv"])
  | .next =>
    let s2 := analyzeJobNode o2 s1
    match shouldContinue s2 with
    | .error => (errorHandlerNode s2, ["parse_cv", "analyze_job", "error_handler"])
    | .done => (s2, ["parse_cv", "analyze_job"])
    | .next =>
      let s3 := identifyGapsNode o3 s2
      match shouldContinue s3 with
      | .error => (errorHandlerNode s3,
          ["parse_cv", "analyze_job", "identify_gaps", "error_handler"])
      | .done => (s3, ["parse_cv", "analyze_job", "identify_gaps"])
      | .next =>
        let s4 := generateRecommendationsNode o4 s3
        match shouldContinue s4 with
        | .error => (errorHandlerNode s4,
            ["parse_cv", "analyze_job", "identify_gaps",
             "generate_recommendations", "error_handler"])
        | _ => (s4, ["parse_cv", "analyze_job", "identify_gaps",
             "generate_recommendations"])

/-- `min(100, max(0, percentage))` from `JobManager.set_progress`. -/
def pyClamp (p : Int) : Int := min 100 (max 0 p)

/-- The job fields a reader of `get_job` sees once
`process_cv_analysis` has finished. -/
structure JobView where
  status : JobStatus
  progress : Int
  result : Option String
  error : Option String
deriving DecidableEq, Repr

/-- `process_cv_analysis(job_id, ..)` from `src/backend/main.py`, started
on a Pending job: `set_processing`, `set_progress(10, ...)`,
`run_workflow`, then `set_progress` from the final state when
`current_step` is truthy, then `set_failed` on a non-empty error list,
`set_completed(result)` when a recommendation result exists, and
`set_failed("No recommendation result generated")` otherwise.  Returns the
final `JobView` together with the full sequence of progress values a
concurrent reader can observe (starting from the 0 set at creation). -/
def processCvAnalysis (o1 o2 o3 o4 : Except RecError String) :
    JobView × List Int :=
  let fs := (runWorkflowModel o1 o2 o3 o4).1
  let writes := [0, 10] ++
    (if fs.currentStep ≠ "" then [pyClamp fs.progressPercentage] else [])
  let lastP := (writes.getLast?).getD 0
  if fs.errors ≠ [] then
    ({ status := .failed, progress := lastP, result := none,
       error := some (pyJoin "; " fs.errors) }, writes)
  else
    match fs.recommendationResult with
    | some r =>
        ({ status := .completed, progress := 100, result := some r,
           error := none }, writes ++ [100])
    | none =>
        ({ status := .failed, progress := lastP, result := none,
           error := some "No recommendation result generated" }, writes)

/-! ## Skill gap analyzer (`src/agents/skill_gap_analyzer.py`) -/

/-- Python `str` whitespace, as used by `str.strip()`: the code points on
which `str.isspace()` is true — U+0009–U+000D, U+001C–U+001F, the space,
U+0085 (NEL), U+00A0 (NBSP), U+1680, the U+2000–U+200A space separators,
U+2028/U+2029 (line/paragraph separators), U+202F, U+205F and U+3000. -/
def pyIsSpace (c : Char) : Bool :=
  (9 ≤ c.toNat && c.toNat ≤ 13) || (28 ≤ c.toNat && c.toNat ≤ 31) ||
  c.toNat == 32 || c.toNat == 133 || c.toNat == 160 || c.toNat == 5760 ||
  (8192 ≤ c.toNat && c.toNat ≤ 8202) || c.toNat == 8232 ||
  c.toNat == 8233 || c.toNat == 8239 || c.toNat == 8287 || c.toNat == 12288

/-- ASCII case of Python `str.lower()` on one character. -/
def pyLowerChar (c : Char) : Char :=
  if 65 ≤ c.toNat ∧ c.toNat ≤ 90 then Char.ofNat (c.toNat + 32) else c

/-- Python `str.strip()` on a character list. -/
def pyStrip (cs : List Char) : List Char :=
  ((cs.dropWhile pyIsSpace).reverse.dropWhile pyIsSpace).reverse

/-- The character pipeline of `_normalize_skills` on one name:
`.lower()`, `.strip()`, then `.replace(".", "")`, `.replace("-", "")`,
`.replace(" ", "")`. -/
def normChars (cs : List Char) : List Char :=
  (((pyStrip (cs.map pyLowerChar)).filter
      (fun c => !(c == '.'))).filter
      (fun c => !(c == '-'))).filter
      (fun c => !(c == ' '))

/-- One skill name as `_normalize_skills` processes it. -/
def normalizeSkill (s : String) : String :=
  String.mk (normChars s.data)

/-- `_normalize_skills`: normalize every name and collect into a set. -/
def normalizeSkills (skills : List String) : Finset String :=
  (skills.map normalizeSkill).toFinset

/-! ### `difflib.SequenceMatcher(None, a, b).ratio()`

Model of CPython's `difflib` for short inputs: with `isjunk=None` and
`len(b) < 200` both the junk set and the popular ("autojunk") set are
empty, which is the case for every normalized skill name.  Machine floats
are replaced by exact rationals. -/

/-- Best match so far in `find_longest_match`: `besti`, `bestj`,
`bestsize`. -/
structure FLM where
  besti : Nat
  bestj : Nat
  bestsize : Nat
deriving DecidableEq, Repr

/-- `j2len.get(j, 0)` on the association-list model of the dict. -/
def lookupD (l : List (Nat × Nat)) (k : Nat) : Nat :=
  ((l.find? (fun p => p.1 == k)).map Prod.snd).getD 0

/-- Inner loop of `find_longest_match` for one `i`: walk the ascending
`b`-indices `j` of `a[i]` inside `[blo, bhi)`, building `newj2len` and
updating the best block (strict improvement only, so the first/leftmost
longest block wins). -/
def flmInner (i : Nat) (js : List Nat) (j2len : List (Nat × Nat))
    (st : FLM) : FLM × List (Nat × Nat) :=
  js.foldl
    (fun acc j =>
      let k := (if j = 0 then 0 else lookupD j2len (j - 1)) + 1
      let st' := if k > acc.1.bestsize then FLM.mk (i + 1 - k) (j + 1 - k) k
                 else acc.1
      (st', acc.2 ++ [(j, k)]))
    (st, [])

/-- The non-junk left extension loop of `find_longest_match`; `fuel`
bounds the iteration count (any `fuel ≥ besti` is exact, as `besti`
decreases by one per iteration and stays above `alo ≥ 0`). -/
def extendLeft (a b : List Char) (alo blo : Nat) :
    Nat → Nat → Nat → Nat → FLM
  | besti, bestj, bestsize, 0 => ⟨besti, bestj, bestsize⟩
  | besti, bestj, bestsize, fuel + 1 =>
    if alo < besti ∧ blo < bestj ∧ a.get? (besti - 1) = b.get? (bestj - 1)
    then extendLeft a b alo blo (besti - 1) (bestj - 1) (bestsize + 1) fuel
    else ⟨besti, bestj, bestsize⟩

/-- The non-junk right extension loop of `find_longest_match`; `fuel`
bounds the iteration count (any `fuel ≥ ahi` is exact). -/
def extendRight (a b : List Char) (ahi bhi : Nat) (besti bestj : Nat) :
    Nat → Nat → Nat
  | bestsize, 0 => bestsize
  | bestsize, fuel + 1 =>
    if besti + bestsize < ahi ∧ bestj + bestsize < bhi ∧
        a.get? (besti + bestsize) = b.get? (bestj + bestsize)
    then extendRight a b ahi bhi besti bestj (bestsize + 1) fuel
    else bestsize

/-- `find_longest_match(alo, ahi, blo, bhi)` with empty junk sets: the
`j2len` dynamic programming pass over `i ∈ [alo, ahi)` followed by the two
non-junk extension loops (the junk extension loops never fire). -/
def findLongestMatch (a b : List Char) (alo ahi blo bhi : Nat) : FLM :=
  let st :=
    ((List.range' alo (ahi - alo)).foldl
      (fun acc i =>
        let js := (List.range bhi).filter
          (fun j => decide (blo ≤ j) && decide (b.get? j = a.get? i))
        flmInner i js acc.2 acc.1)
      ((⟨alo, blo, 0⟩ : FLM), ([] : List (Nat × Nat)))).1
  let e := extendLeft a b alo blo st.besti st.bestj st.bestsize st.besti
  ⟨e.besti, e.bestj,
    extendRight a b ahi bhi e.besti e.bestj e.bestsize (ahi + 1)⟩

/-- Total size of the matching blocks of `get_matching_blocks` (the
queue-driven recursive decomposition; merging adjacent blocks preserves
the total).  `fuel` bounds the recursion depth; any
`fuel > len a + len b` is exact. -/
def matchingTotal (a b : List Char) : Nat → Nat → Nat → Nat → Nat → Nat
  | 0, _, _, _, _ => 0
  | fuel + 1, alo, ahi, blo, bhi =>
    if alo < ahi ∧ blo < bhi then
      let m := findLongestMatch a b alo ahi blo bhi
      if m.bestsize > 0 then
        matchingTotal a b fuel alo m.besti blo m.bestj + m.bestsize +
          matchingTotal a b fuel (m.besti + m.bestsize) ahi
            (m.bestj + m.bestsize) bhi
      else 0
    else 0

/-- `SequenceMatcher(None, a, b).ratio() = 2*M / (len(a)+len(b))`, and 1.0
when both sequences are empty. -/
def pyRatio (a b : List Char) : ℚ :=
  let total := a.length + b.length
  if total = 0 then 1
  else 2 * (matchingTotal a b (a.length + b.length + 1) 0 a.length 0 b.length : ℚ)
        / total

/-- `_find_matches(cv_skills, job_skills, similarity_threshold)`: a job
skill is matched when it is exactly present, or when some CV skill has
`ratio ≥ threshold` (the `break` only shortcuts the scan; membership in
the result is unaffected). -/
def findMatches (cvSkills jobSkills : Finset String) (threshold : ℚ) :
    Finset String :=
  jobSkills.filter
    (fun j => j ∈ cvSkills ∨ ∃ c ∈ cvSkills, threshold ≤ pyRatio j.data c.data)

/-- Round half to even at integer precision, the behaviour of Python's
`round` (floats replaced by exact rationals). -/
def roundHalfEven (q : ℚ) : ℤ :=
  if q - ⌊q⌋ < 1/2 then ⌊q⌋
  else if 1/2 < q - ⌊q⌋ then ⌊q⌋ + 1
  else if ⌊q⌋ % 2 = 0 then ⌊q⌋ else ⌊q⌋ + 1

/-- Python `round(x, 1)`. -/
def pyRound1 (q : ℚ) : ℚ := (roundHalfEven (q * 10) : ℚ) / 10

/-- The fields of the `SkillMatchAnalysis` result that the gap analysis
computes (sets are kept as sets; the source materializes them as lists of
unspecified order). -/
structure GapAnalysis where
  totalRequiredSkills : Nat
  matchedSkills : Finset String
  missingRequiredSkills : Finset String
  missingPreferredSkills : Finset String
  matchPercentage : ℚ
deriving DecidableEq

/-- `SkillGapAnalyzerAgent.analyze_gaps`, applied to the three raw name
lists (`get_all_skill_names()`, required, preferred): normalize, match
with threshold 0.85, subtract for the gaps, and compute
`round((len(matched_required)/total_required)*100, 1)`, or 100.0 when no
skills are required. -/
def analyzeGaps (cvNames requiredNames preferredNames : List String) :
    GapAnalysis :=
  let cvSkills := normalizeSkills cvNames
  let requiredSkills := normalizeSkills requiredNames
  let preferredSkills := normalizeSkills preferredNames
  let matchedRequired := findMatches cvSkills requiredSkills (85/100)
  let matchedPreferred := findMatches cvSkills preferredSkills (85/100)
  let totalRequired := requiredSkills.card
  let pct : ℚ :=
    if 0 < totalRequired then (matchedRequired.card : ℚ) / totalRequired * 100
    else 100
  { totalRequiredSkills := totalRequired,
    matchedSkills := matchedRequired ∪ matchedPreferred,
    missingRequiredSkills := requiredSkills \ matchedRequired,
    missingPreferredSkills := preferredSkills \ matchedPreferred,
    matchPercentage := pyRound1 pct }

/-! ## Retry policy (`retry_on_error` in `src/utils/error_handler.py`) -/

/-- Outcome of calling a Python function: a returned value or a raised
exception that escapes to the caller. -/
inductive PyResult (ε α : Type) where
  | ok (a : α)
  | raised (e : ε)
deriving DecidableEq, Repr

/-- The `for attempt in range(max_retries + 1)` loop of `retry_on_error`.
`attempts i` is what the wrapped function does on its `i`-th invocation;
`matching e` is `isinstance(e, exceptions)`.  A non-matching exception is
not caught and escapes; a matching one is retried after sleeping
`cur` seconds (`cur` starts at `delay` and is multiplied by `backoff`),
and the last one is re-raised unchanged once the loop ends. -/
def retryGo {ε α : Type} (attempts : Nat → Except ε α) (matching : ε → Bool)
    (maxRetries : Nat) (backoff : ℚ) :
    Nat → ℚ → List ℚ → PyResult ε α × List ℚ
  | i, cur, sleeps =>
    match attempts i with
    | .ok a => (.ok a, sleeps)
    | .error e =>
      if matching e then
        if i < maxRetries then
          retryGo attempts matching maxRetries backoff (i + 1) (cur * backoff)
            (sleeps ++ [cur])
        else (.raised e, sleeps)
      else (.raised e, sleeps)
termination_by i => maxRetries - i
decreasing_by omega

/-- `retry_on_error(max_retries, delay, backoff, exceptions)` wrapping a
function whose successive invocations behave as `attempts`: returns the
final outcome and the sleeps performed, in order. -/
def retryOnError {ε α : Type} (attempts : Nat → Except ε α)
    (matching : ε → Bool) (maxRetries : Nat) (delay backoff : ℚ) :
    PyResult ε α × List ℚ :=
  retryGo attempts matching maxRetries backoff 0 delay []

/-! ## Response cache (`src/utils/cache.py`) -/

/-- `InMemoryCache._cache`: key → (value, expiry).  A stored value is any
Python object *including `None`*, hence `Option String`. -/
structure InMemoryCache where
  cache : List (String × (Option String × ℚ))
deriving DecidableEq, Repr

/-- `InMemoryCache.get`: return the stored value before its expiry (the
stored value may itself be `None`); at or past the expiry delete the entry
and return `None`; return `None` on a missing key. -/
def InMemoryCache.get (c : InMemoryCache) (key : String) (now : ℚ) :
    Option String × InMemoryCache :=
  match c.cache.find? (fun p => p.1 == key) with
  | some kv =>
    if now < kv.2.2 then (kv.2.1, c)
    else (none, ⟨c.cache.filter (fun p => !(p.1 == key))⟩)
  | none => (none, c)

/-- `InMemoryCache.set`: `self._cache[key] = (value, now + ttl)` (dict
assignment: replace any existing entry). -/
def InMemoryCache.set (c : InMemoryCache) (key : String) (v : Option String)
    (ttl now : ℚ) : InMemoryCache :=
  ⟨(c.cache.filter (fun p => !(p.1 == key))) ++ [(key, (v, now + ttl))]⟩

/-- One invocation of a function wrapped by the `cached` decorator.
`fnResult` is what the wrapped function returns if it runs.  Yields the
call's result, the cache afterwards, and whether the function was actually
executed.  The wrapper serves a cached value only via
`if cached_result is not None`. -/
def cachedCall (enableCaching : Bool) (c : InMemoryCache) (key : String)
    (now : ℚ) (fnResult : Option String) (ttl : ℚ) :
    Option String × InMemoryCache × Bool :=
  if !enableCaching then (fnResult, c, true)
  else
    let g := c.get key now
    match g.1 with
    | some v => (some v, g.2, false)
    | none => (fnResult, (g.2).set key fnResult ttl now, true)

/-! # Theorems -/

/-! ## Shared helper lemmas -/

/-- `consume` on insufficient tokens: the refill is recorded, the request
is denied. -/
theorem TokenBucket.consume_fail {b : TokenBucket} {now t : ℚ}
    (h : ¬ t ≤ min b.rate (b.tokens + (now - b.lastUpdate) * b.rate / b.per)) :
    b.consume now t =
      (false, { b with
        tokens := min b.rate (b.tokens + (now - b.lastUpdate) * b.rate / b.per),
        lastUpdate := now }) := by
  simp only [TokenBucket.consume, if_neg h]

/-- `consume` on sufficient tokens: refill, subtract, grant. -/
theorem TokenBucket.consume_ok {b : TokenBucket} {now t : ℚ}
    (h : t ≤ min b.rate (b.tokens + (now - b.lastUpdate) * b.rate / b.per)) :
    b.consume now t =
      (true, { b with
        tokens := min b.rate (b.tokens + (now - b.lastUpdate) * b.rate / b.per) - t,
        lastUpdate := now }) := by
  simp only [TokenBucket.consume, if_pos h]

/-- A string with a non-empty prefix is non-empty. -/
theorem append_ne_empty_left (p s : String) (hp : p.length ≠ 0) :
    (p ++ s) ≠ "" := by
  intro he
  have h2 := congrArg String.length he
  rw [String.length_append] at h2
  have h0 : ("" : String).length = 0 := rfl
  rw [h0] at h2
  omega

/-- Every branch of `format_error_for_user` yields a non-empty message. -/
theorem formatErrorForUser_ne_empty (e : RecError) :
    formatErrorForUser e ≠ "" := by
  cases e with
  | rateLimit apiName retryAfter =>
    cases retryAfter with
    | some ra =>
      simp only [formatErrorForUser]
      rw [String.append_assoc, String.append_assoc, String.append_assoc]
      exact append_ne_empty_left "⏱️ API rate limit exceeded for " _ (by decide)
    | none =>
      simp only [formatErrorForUser]
      rw [String.append_assoc]
      exact append_ne_empty_left "⏱️ API rate limit exceeded for " _ (by decide)
  | cvParsing m =>
    simp only [formatErrorForUser]
    rw [String.append_assoc]
    exact append_ne_empty_left "❌ Failed to parse CV: " _ (by decide)
  | jobAnalysis m =>
    simp only [formatErrorForUser]
    rw [String.append_assoc]
    exact append_ne_empty_left "❌ Failed to analyze job description: " _
      (by decide)
  | api apiName m =>
    simp only [formatErrorForUser]
    rw [String.append_assoc, String.append_assoc, String.append_assoc]
    exact append_ne_empty_left "🌐 API error (" _ (by decide)
  | configuration m =>
    simp only [formatErrorForUser]
    rw [String.append_assoc]
    exact append_ne_empty_left "⚙️ Configuration error: " _ (by decide)
  | skillGapAnalysis m =>
    exact append_ne_empty_left "❌ Error: " _ (by decide)
  | projectRecommendation m =>
    exact append_ne_empty_left "❌ Error: " _ (by decide)
  | recommender m =>
    exact append_ne_empty_left "❌ Error: " _ (by decide)
  | unexpected m =>
    simp only [formatErrorForUser]
    rw [String.append_assoc]
    exact append_ne_empty_left "❌ An unexpected error occurred: " _ (by decide)

/-! ## C3 — disabled limiting / `rate = 0` buckets -/

/-- C3 counterexample.  The claim states that an `acquire` on a service
whose bucket has `rate = 0` "returns true immediately without raising any
error": on the bucket `TokenBucket(rate=0, per=60)` (so `tokens = 0`),
a blocking `acquire` of one token hits the `ZeroDivisionError` of
`wait_time` (`Except.error ()`), and a non-blocking one returns `False`. -/
theorem acquire_rate_zero_cex :
    acquire true true ⟨0, 60, 0, 0⟩ 0 1 true = .error () ∧
    acquire true true ⟨0, 60, 0, 0⟩ 0 1 false =
      .ok ⟨false, ⟨0, 60, 0, 0⟩, []⟩ := by
  constructor <;>
    norm_num [acquire, TokenBucket.consume, TokenBucket.waitTime]

/-- C3 amended.  When rate limiting is disabled, or the service has no
configured bucket, `acquire` returns `True` immediately, with no sleep and
no bucket change.  A bucket with `rate = 0`, however, never grants a
request of at least one token: a blocking `acquire` raises
`ZeroDivisionError` from `wait_time`, and a non-blocking one returns
`False`. -/
theorem acquire_disabled_and_rate_zero :
    (∀ (cfg : Bool) (b : TokenBucket) (now t : ℚ) (w : Bool),
        acquire false cfg b now t w = .ok ⟨true, b, []⟩) ∧
    (∀ (b : TokenBucket) (now t : ℚ) (w : Bool),
        acquire true false b now t w = .ok ⟨true, b, []⟩) ∧
    (∀ (b : TokenBucket) (now t : ℚ), b.rate = 0 → 1 ≤ t →
        acquire true true b now t true = .error () ∧
        acquire true true b now t false =
          .ok ⟨false, { b with tokens := min b.rate b.tokens,
                               lastUpdate := now }, []⟩) := by
  refine ⟨fun cfg b now t w => by simp [acquire],
          fun b now t w => by simp [acquire],
          fun b now t hr ht => ?_⟩
  have hmin : b.tokens + (now - b.lastUpdate) * b.rate / b.per = b.tokens := by
    rw [hr]; ring
  have hle : min b.rate b.tokens ≤ 0 := by
    rw [hr]; exact min_le_left _ _
  have hfail :
      ¬ t ≤ min b.rate (b.tokens + (now - b.lastUpdate) * b.rate / b.per) := by
    rw [hmin]; intro hc; linarith
  have hcf := TokenBucket.consume_fail hfail
  have h1 : ¬ (1 : ℚ) ≤ min b.rate b.tokens := by intro hc; linarith
  have hwt : ({ b with
      tokens := min b.rate (b.tokens + (now - b.lastUpdate) * b.rate / b.per),
      lastUpdate := now } : TokenBucket).waitTime = .error () := by
    simp only [TokenBucket.waitTime, hmin]
    rw [if_neg h1, if_pos hr]
  constructor
  · simp [acquire, hcf, hwt]
  · simp [acquire, hcf, hmin]

/-- C3 witness: the amended theorem applied to the concrete bucket
`TokenBucket(rate=0, per=60)` and a disabled-limiting call. -/
theorem acquire_disabled_and_rate_zero_witness :
    acquire false true ⟨0, 60, 0, 0⟩ 0 1 true = .ok ⟨true, ⟨0, 60, 0, 0⟩, []⟩ ∧
    acquire true true ⟨0, 60, 0, 0⟩ 0 1 true = .error () := by
  refine ⟨acquire_disabled_and_rate_zero.1 true ⟨0, 60, 0, 0⟩ 0 1 true, ?_⟩
  have h := (acquire_disabled_and_rate_zero.2.2 ⟨0, 60, 0, 0⟩ 0 1 rfl
    (le_refl 1)).1
  exact h

/-! ## C4 — blocking `acquire` on an insufficient bucket -/

/-- C4 counterexample.  The claim states that a blocking `acquire`
computes "the wait time needed for the requested tokens to accrue" and
"then subtracts the tokens and returns true".  On
`TokenBucket(rate=5, per=60)` with an empty bucket, `acquire(tokens=3,
wait=True)` sleeps only `wait_time() = 12` seconds (the time for *one*
token, not the 36 seconds three tokens need), after which the second
`consume(3)` finds a single token and the call returns `False`. -/
theorem acquire_blocking_cex :
    acquire true true ⟨5, 60, 0, 0⟩ 0 3 true =
      .ok ⟨false, ⟨5, 60, 1, 12⟩, [12]⟩ := by
  norm_num [acquire, TokenBucket.consume, TokenBucket.waitTime]

/-- C4 amended.  A blocking `acquire` that finds insufficient tokens
sleeps exactly once, for `wait_time()` — the time for a *single* token to
accrue — and then returns the outcome of one further `consume`.  When
exactly one token is requested (the only amount used in the source) and
the bucket has `rate ≥ 1`, that second attempt is guaranteed to succeed:
the call returns `True` with the bucket emptied. -/
theorem acquire_blocking_single_token (b : TokenBucket) (now : ℚ)
    (hr : 1 ≤ b.rate) (hp : 0 < b.per)
    (hfail : min b.rate (b.tokens + (now - b.lastUpdate) * b.rate / b.per) < 1) :
    acquire true true b now 1 true =
      .ok ⟨true,
        ⟨b.rate, b.per, 0,
          now + (1 - min b.rate (b.tokens + (now - b.lastUpdate) * b.rate / b.per))
            * b.per / b.rate⟩,
        [(1 - min b.rate (b.tokens + (now - b.lastUpdate) * b.rate / b.per))
            * b.per / b.rate]⟩ := by
  have hbpos : (0 : ℚ) < b.rate := lt_of_lt_of_le zero_lt_one hr
  have hb0 : b.rate ≠ 0 := ne_of_gt hbpos
  have hpne : b.per ≠ 0 := ne_of_gt hp
  set r0 := min b.rate (b.tokens + (now - b.lastUpdate) * b.rate / b.per)
    with hr0
  set w := (1 - r0) * b.per / b.rate with hw
  have h1 : ¬ (1 : ℚ) ≤ r0 := not_le.mpr hfail
  have hcf := @TokenBucket.consume_fail b now 1 h1
  have hwt : ({ b with tokens := r0, lastUpdate := now } :
      TokenBucket).waitTime = .ok w := by
    simp only [TokenBucket.waitTime]
    rw [if_neg h1, if_neg hb0]
  have helapsed : now + w - now = w := by ring
  have hrefill : r0 + w * b.rate / b.per = 1 := by
    rw [hw]; field_simp
  have hok : ({ b with tokens := r0, lastUpdate := now } : TokenBucket).consume
      (now + w) 1 =
      (true, { b with tokens := 0, lastUpdate := now + w }) := by
    have hge : (1 : ℚ) ≤ min b.rate
        (r0 + ((now + w) - now) * b.rate / b.per) := by
      rw [helapsed, hrefill, min_eq_right hr]
    have := @TokenBucket.consume_ok
      { b with tokens := r0, lastUpdate := now } (now + w) 1
      (by simpa using hge)
    simpa [helapsed, hrefill, min_eq_right hr] using this
  simp [acquire, hcf, hwt, hok]

/-- C4 witness: the amended theorem on `TokenBucket(rate=5, per=60)` with
an empty bucket — one token is granted after a single 12-second sleep. -/
theorem acquire_blocking_single_token_witness :
    acquire true true ⟨5, 60, 0, 0⟩ 0 1 true =
      .ok ⟨true, ⟨5, 60, 0, 12⟩, [12]⟩ := by
  have h := acquire_blocking_single_token ⟨5, 60, 0, 0⟩ 0 (by norm_num)
    (by norm_num) (by norm_num)
  convert h using 3 <;> norm_num

/-! ## C5 — the retention sweep -/

/-- C5 confirmed.  One `_cleanup_old_jobs` pass removes a job exactly when
its status is terminal (`COMPLETED` or `FAILED`) and its `updated_at` is
strictly before `now - retention`; hence any job updated inside the
window, and any `PENDING`/`PROCESSING` job of whatever age, survives. -/
theorem cleanup_removes_iff (jobs : List (String × JobState))
    (now retention : ℚ) (k : String) (j : JobState)
    (hnd : (jobs.map Prod.fst).Nodup) (hm : (k, j) ∈ jobs) :
    (k, j) ∉ cleanupOldJobs jobs now retention ↔
      (j.status = .completed ∨ j.status = .failed) ∧
        j.updatedAt < now - retention := by
  have key : (k, j) ∈ cleanupOldJobs jobs now retention ↔
      ((k, j) ∈ jobs ∧ k ∉ jobsToRemove jobs (now - retention)) := by
    simp [cleanupOldJobs, List.mem_filter]
  have hrm : k ∈ jobsToRemove jobs (now - retention) ↔
      ((j.status = .completed ∨ j.status = .failed) ∧
        j.updatedAt < now - retention) := by
    simp only [jobsToRemove, List.mem_map, List.mem_filter,
      decide_eq_true_eq]
    constructor
    · rintro ⟨p, ⟨hpmem, hcond⟩, hpk⟩
      have hpeq : p = (k, j) :=
        List.inj_on_of_nodup_map hnd hpmem hm (by simpa using hpk)
      rw [hpeq] at hcond
      simpa using hcond
    · intro hc
      exact ⟨(k, j), ⟨hm, by simpa using hc⟩, rfl⟩
  rw [not_congr key]
  simp only [hm, true_and, not_not]
  exact hrm

/-- C5 witness: on a store holding a stale completed job, a stale
processing job and a fresh completed job, with `now = 1000` and a
600-second window, only the stale completed job is swept. -/
theorem cleanup_removes_iff_witness :
    (("a", { jobId := "a", status := .completed, progressPercentage := 100,
             currentStep := "Completed", result := some "r", error := none,
             createdAt := 0, updatedAt := 10 }) ∉
        cleanupOldJobs
          [("a", { jobId := "a", status := .completed,
                   progressPercentage := 100, currentStep := "Completed",
                   result := some "r", error := none, createdAt := 0,
                   updatedAt := 10 }),
           ("b", { jobId := "b", status := .processing,
                   progressPercentage := 50, currentStep := "Working",
                   result := none, error := none, createdAt := 0,
                   updatedAt := 10 }),
           ("c", { jobId := "c", status := .completed,
                   progressPercentage := 100, currentStep := "Completed",
                   result := some "r", error := none, createdAt := 0,
                   updatedAt := 900 })]
          1000 600 ↔ True) ∧
    (("b", { jobId := "b", status := .processing, progressPercentage := 50,
             currentStep := "Working", result := none, error := none,
             createdAt := 0, updatedAt := 10 }) ∉
        cleanupOldJobs
          [("a", { jobId := "a", status := .completed,
                   progressPercentage := 100, currentStep := "Completed",
                   result := some "r", error := none, createdAt := 0,
                   updatedAt := 10 }),
           ("b", { jobId := "b", status := .processing,
                   progressPercentage := 50, currentStep := "Working",
                   result := none, error := none, createdAt := 0,
                   updatedAt := 10 }),
           ("c", { jobId := "c", status := .completed,
                   progressPercentage := 100, currentStep := "Completed",
                   result := some "r", error := none, createdAt := 0,
                   updatedAt := 900 })]
          1000 600 ↔ False) := by
  constructor
  · rw [cleanup_removes_iff _ _ _ _ _ (by decide) (by norm_num)]
    norm_num
  · rw [cleanup_removes_iff _ _ _ _ _ (by decide) (by norm_num)]
    simp

/-! ## C2 — `get_job` returns the live object, not a snapshot -/

/-- C2 counterexample.  The claim states that a caller mutating the object
returned by `get_job` leaves the store unchanged.  Concretely: create job
`"j1"` (reference 0), set `progress_percentage = 55` through the returned
reference — the next `get_job("j1")` observes 55, not the stored 0. -/
theorem get_job_live_reference_cex :
    getJob (createJob emptyManager "j1" 0) "j1" = some 0 ∧
    observeJob (createJob emptyManager "j1" 0) "j1" =
      some (newJobState "j1" 0) ∧
    observeJob (mutateRef (createJob emptyManager "j1" 0) 0
        (fun j => { j with progressPercentage := 55 })) "j1" =
      some { newJobState "j1" 0 with progressPercentage := 55 } ∧
    observeJob (mutateRef (createJob emptyManager "j1" 0) 0
        (fun j => { j with progressPercentage := 55 })) "j1" ≠
      observeJob (createJob emptyManager "j1" 0) "j1" := by
  refine ⟨rfl, rfl, rfl, ?_⟩
  intro h
  have h55 := Option.some.inj h
  have : (55 : Int) = 0 := congrArg JobState.progressPercentage h55
  exact absurd this (by decide)

/-- C2 amended.  `get_job` hands out the stored `JobState` object itself:
any mutation a caller applies through that reference is observed by every
subsequent `get_job` on the same id (and by the sweep, which reads the
same object). -/
theorem get_job_returns_live_reference (s : ManagerState) (id : String)
    (r : Nat) (f : JobState → JobState) (j : JobState)
    (hget : getJob s id = some r) (hread : readRef s r = some j) :
    observeJob (mutateRef s r f) id = some (f j) := by
  have hread' : s.heap[r]? = some j := by
    rw [← List.get?_eq_getElem?]; exact hread
  have hm : mutateRef s r f = { s with heap := s.heap.set r (f j) } := by
    simp [mutateRef, hread']
  have hlt : r < s.heap.length := (List.get?_eq_some.mp hread).1
  rw [hm]
  show ((getJob { s with heap := s.heap.set r (f j) } id).bind _) = _
  have hg2 : getJob { s with heap := s.heap.set r (f j) } id = some r := hget
  rw [hg2]
  show readRef { s with heap := s.heap.set r (f j) } r = some (f j)
  show (s.heap.set r (f j)).get? r = some (f j)
  rw [List.get?_set_eq_of_lt _ hlt]

/-- C2 witness: the amended theorem on the one-job store of the
counterexample. -/
theorem get_job_returns_live_reference_witness :
    observeJob (mutateRef (createJob emptyManager "j1" 0) 0
        (fun j => { j with progressPercentage := 55 })) "j1" =
      some { newJobState "j1" 0 with progressPercentage := 55 } :=
  get_job_returns_live_reference (createJob emptyManager "j1" 0) "j1" 0
    (fun j => { j with progressPercentage := 55 }) (newJobState "j1" 0)
    rfl rfl

/-! ## C1 — progress monotonicity -/

/-- C1 counterexample.  The claim states that the observable progress of a
job is monotonically non-decreasing even for a run that ends in the error
terminal.  For a run whose CV-parsing stage fails, the observable progress
sequence is `0` (creation), `10` (`set_progress(10, "Initializing
workflow...")`), then `0` again — `error_handler_node` resets
`progress_percentage` to 0 and `process_cv_analysis` copies that value
into the job before `set_failed`. -/
theorem progress_monotone_cex :
    (processCvAnalysis (.error (.cvParsing "bad file")) (.ok "jr") (.ok "ga")
        (.ok "rec")).2 = [0, 10, 0] ∧
    ¬ List.Chain' (· ≤ ·)
      ((processCvAnalysis (.error (.cvParsing "bad file")) (.ok "jr")
        (.ok "ga") (.ok "rec")).2) := by
  have h : (processCvAnalysis (.error (.cvParsing "bad file")) (.ok "jr")
      (.ok "ga") (.ok "rec")).2 = [0, 10, 0] := by
    simp [processCvAnalysis, runWorkflowModel, parseCvNode,
      initialWorkflowState, shouldContinue, errorHandlerNode, pyClamp]
  refine ⟨h, ?_⟩
  rw [h]
  norm_num [List.chain'_cons]

/-- C1 amended.  The progress values observable for a job are
monotonically non-decreasing (ending at 100) for every run that finishes
with an empty error list; a run that is routed to the error terminal,
however, resets progress to 0, so the observable sequence is exactly
`[0, 10, 0]` — a reader can see the progress drop from 10 back to 0 before
the job is marked Failed. -/
theorem progress_writes_monotone_unless_error
    (o1 o2 o3 o4 : Except RecError String) :
    ((runWorkflowModel o1 o2 o3 o4).1.errors = [] →
      List.Chain' (· ≤ ·) (processCvAnalysis o1 o2 o3 o4).2 ∧
      (processCvAnalysis o1 o2 o3 o4).2.getLast? = some 100) ∧
    ((runWorkflowModel o1 o2 o3 o4).1.errors ≠ [] →
      (processCvAnalysis o1 o2 o3 o4).2 = [0, 10, 0]) := by
  cases o1 with
  | error e1 =>
    simp [processCvAnalysis, runWorkflowModel, parseCvNode,
      initialWorkflowState, shouldContinue, errorHandlerNode, pyClamp]
  | ok d1 =>
    cases o2 with
    | error e2 =>
      simp [processCvAnalysis, runWorkflowModel, parseCvNode, analyzeJobNode,
        initialWorkflowState, shouldContinue, errorHandlerNode, pyClamp]
    | ok d2 =>
      cases o3 with
      | error e3 =>
        simp [processCvAnalysis, runWorkflowModel, parseCvNode,
          analyzeJobNode, identifyGapsNode, initialWorkflowState,
          shouldContinue, errorHandlerNode, pyClamp]
      | ok d3 =>
        cases o4 with
        | error e4 =>
          simp [processCvAnalysis, runWorkflowModel, parseCvNode,
            analyzeJobNode, identifyGapsNode, generateRecommendationsNode,
            initialWorkflowState, shouldContinue, errorHandlerNode, pyClamp]
        | ok d4 =>
          refine ⟨fun _ => ⟨?_, ?_⟩, fun hne => ?_⟩ <;>
            simp [processCvAnalysis, runWorkflowModel, parseCvNode,
              analyzeJobNode, identifyGapsNode, generateRecommendationsNode,
              initialWorkflowState, shouldContinue, pyClamp] at *

/-- C1 witness: the amended theorem on a fully successful run (monotone
writes `[0, 10, 100, 100]`) — its hypothesis `errors = []` discharged by
evaluation. -/
theorem progress_writes_monotone_unless_error_witness :
    List.Chain' (· ≤ ·)
      (processCvAnalysis (.ok "cv") (.ok "jr") (.ok "ga") (.ok "rec")).2 ∧
    (processCvAnalysis (.ok "cv") (.ok "jr") (.ok "ga")
      (.ok "rec")).2.getLast? = some 100 :=
  (progress_writes_monotone_unless_error (.ok "cv") (.ok "jr") (.ok "ga")
    (.ok "rec")).1 (by
      simp [runWorkflowModel, parseCvNode, analyzeJobNode, identifyGapsNode,
        generateRecommendationsNode, initialWorkflowState, shouldContinue])

/-! ## C6 — error routing and the final job state -/

/-- C6 confirmed.  (a) When the job-analysis stage raises, the workflow
routes `parse_cv → analyze_job → error_handler`; `identify_gaps` and
`generate_recommendations` never execute, and the job ends `FAILED` with
the (non-empty) formatted error string.  (b) When no stage errors and a
recommendation result is produced, all four stages run, no error handler
runs, and the job ends `COMPLETED` with progress 100 and the result
payload. -/
theorem pipeline_error_routing (r1 r2 r3 r4 : String) (e2 : RecError)
    (o3 o4 : Except RecError String) :
    ((runWorkflowModel (.ok r1) (.error e2) o3 o4).2 =
        ["parse_cv", "analyze_job", "error_handler"] ∧
      "identify_gaps" ∉ (runWorkflowModel (.ok r1) (.error e2) o3 o4).2 ∧
      "generate_recommendations" ∉
        (runWorkflowModel (.ok r1) (.error e2) o3 o4).2 ∧
      (processCvAnalysis (.ok r1) (.error e2) o3 o4).1.status = .failed ∧
      (processCvAnalysis (.ok r1) (.error e2) o3 o4).1.error =
        some (formatErrorForUser e2) ∧
      formatErrorForUser e2 ≠ "") ∧
    ((runWorkflowModel (.ok r1) (.ok r2) (.ok r3) (.ok r4)).2 =
        ["parse_cv", "analyze_job", "identify_gaps",
         "generate_recommendations"] ∧
      (processCvAnalysis (.ok r1) (.ok r2) (.ok r3) (.ok r4)).1.status =
        .completed ∧
      (processCvAnalysis (.ok r1) (.ok r2) (.ok r3) (.ok r4)).1.progress =
        100 ∧
      (processCvAnalysis (.ok r1) (.ok r2) (.ok r3) (.ok r4)).1.result =
        some r4) := by
  constructor
  · refine ⟨?_, ?_, ?_, ?_, ?_, formatErrorForUser_ne_empty e2⟩ <;>
      simp [processCvAnalysis, runWorkflowModel, parseCvNode, analyzeJobNode,
        initialWorkflowState, shouldContinue, errorHandlerNode, pyClamp,
        pyJoin]
  · refine ⟨?_, ?_, ?_, ?_⟩ <;>
      simp [processCvAnalysis, runWorkflowModel, parseCvNode, analyzeJobNode,
        identifyGapsNode, generateRecommendationsNode, initialWorkflowState,
        shouldContinue, pyClamp]

/-! ## C9 — `retry_on_error` -/

/-- Skipping `k` consecutive matching failures: the loop advances from
attempt `i` to attempt `i + k`, multiplying the delay by `backoff` each
time and recording one sleep per failed attempt. -/
theorem retryGo_skip {ε α : Type} (attempts : Nat → Except ε α)
    (matching : ε → Bool) (mr : Nat) (bo : ℚ) :
    ∀ (k i : Nat) (cur : ℚ) (sleeps : List ℚ), i + k ≤ mr →
      (∀ n, n < k → ∃ e, attempts (i + n) = .error e ∧ matching e = true) →
      retryGo attempts matching mr bo i cur sleeps =
        retryGo attempts matching mr bo (i + k) (cur * bo ^ k)
          (sleeps ++ (List.range k).map (fun n => cur * bo ^ n)) := by
  intro k
  induction k with
  | zero => intro i cur sleeps _ _; simp
  | succ k ih =>
    intro i cur sleeps hle herr
    obtain ⟨e, he, hm⟩ := by simpa using herr 0 (Nat.succ_pos k)
    have hi : i < mr := by omega
    rw [retryGo, he]
    simp only [hm, hi, if_true]
    rw [ih (i + 1) (cur * bo) (sleeps ++ [cur]) (by omega)
      (fun n hn => by
        obtain ⟨e', he', hm'⟩ := herr (n + 1) (by omega)
        exact ⟨e', by rw [show i + 1 + n = i + (n + 1) by omega]; exact he',
          hm'⟩)]
    have harith : cur * bo * bo ^ k = cur * bo ^ (k + 1) := by ring
    have hlist : (sleeps ++ [cur]) ++
        (List.range k).map (fun n => cur * bo * bo ^ n) =
        sleeps ++ (List.range (k + 1)).map (fun n => cur * bo ^ n) := by
      rw [List.range_succ_eq_map, List.append_assoc]
      simp only [List.map_cons, List.map_map, List.singleton_append,
        pow_zero, mul_one]
      congr 2
      apply List.map_congr_left
      intro n _
      simp [Function.comp, pow_succ]
      ring
    rw [show i + 1 + k = i + (k + 1) by omega, harith, hlist]

/-- C9 confirmed.  For a function wrapped by
`retry_on_error(max_retries, delay, backoff, exceptions)`:
(a) after `k ≤ max_retries` matching failures, a success on attempt `k`
returns that value, having slept `delay * backoff^n` after each failed
attempt `n < k` (in particular an immediate success sleeps never);
(b) when every attempt up to `max_retries` fails with a matching error,
the loop performs `max_retries` sleeps and re-raises the *last* error
object unchanged;
(c) a non-matching error is not caught: it propagates at once, with no
further attempts and no sleep for it. -/
theorem retry_on_error_spec {ε α : Type} (attempts : Nat → Except ε α)
    (matching : ε → Bool) (mr : Nat) (d bo : ℚ) :
    (∀ (k : Nat) (a : α), k ≤ mr →
        (∀ n, n < k → ∃ e, attempts n = .error e ∧ matching e = true) →
        attempts k = .ok a →
        retryOnError attempts matching mr d bo =
          (.ok a, (List.range k).map (fun n => d * bo ^ n))) ∧
    (∀ (e : Nat → ε),
        (∀ n, n ≤ mr → attempts n = .error (e n) ∧ matching (e n) = true) →
        retryOnError attempts matching mr d bo =
          (.raised (e mr), (List.range mr).map (fun n => d * bo ^ n))) ∧
    (∀ (k : Nat) (e : ε), k ≤ mr →
        (∀ n, n < k → ∃ e', attempts n = .error e' ∧ matching e' = true) →
        attempts k = .error e → matching e = false →
        retryOnError attempts matching mr d bo =
          (.raised e, (List.range k).map (fun n => d * bo ^ n))) := by
  refine ⟨fun k a hk herr hok => ?_, fun e herr => ?_, fun k e hk herr he hm => ?_⟩
  · rw [retryOnError, retryGo_skip attempts matching mr bo k 0 d []
      (by omega) (fun n hn => by simpa using herr n hn)]
    rw [retryGo]
    simp [hok]
  · rw [retryOnError, retryGo_skip attempts matching mr bo mr 0 d []
      (by omega) (fun n hn => by
        obtain ⟨he', hm'⟩ := herr n (by omega)
        exact ⟨e n, by simpa using he', hm'⟩)]
    rw [retryGo]
    have hmr := herr mr (le_refl mr)
    simp [hmr.1, hmr.2]
  · rw [retryOnError, retryGo_skip attempts matching mr bo k 0 d []
      (by omega) (fun n hn => by simpa using herr n hn)]
    rw [retryGo]
    simp [he, hm]

/-- C9 witness: a function failing twice with a matching error and then
succeeding, under `max_retries = 3`, `delay = 1`, `backoff = 2`: the
wrapper returns the value after sleeping 1 s and then 2 s. -/
theorem retry_on_error_spec_witness :
    retryOnError (fun i => if i < 2 then .error "boom" else .ok "val")
      (fun _ => true) 3 1 2 = (.ok "val", [1, 2]) := by
  have h := (retry_on_error_spec
      (fun i => if i < 2 then .error "boom" else .ok "val")
      (fun _ => true) 3 1 2).1 2 "val" (by omega)
    (fun n hn => ⟨"boom", by simp [hn], rfl⟩) (by norm_num)
  rw [h]
  norm_num [List.range_succ]

/-! ## C10 — a cached `None` is indistinguishable from a miss -/

/-- C10 confirmed.  When a wrapped call misses the cache (which includes
the case of a stored `None`), the function runs; if it returns `None`,
that `None` is stored but every later identical call still re-executes the
function — within the TTL or not — because the wrapper only serves a
cached value when `cached_result is not None`. -/
theorem cached_none_reexecutes (c : InMemoryCache) (key : String)
    (now now2 ttl : ℚ) (res2 : Option String)
    (hmiss : (c.get key now).1 = none) :
    (cachedCall true c key now none ttl).1 = none ∧
    (cachedCall true c key now none ttl).2.2 = true ∧
    cachedCall true (cachedCall true c key now none ttl).2.1 key now2 res2
        ttl =
      (res2, ((cachedCall true c key now none ttl).2.1).set key res2 ttl now2,
        true) := by
  have h1 : cachedCall true c key now none ttl =
      (none, ((c.get key now).2).set key none ttl now, true) := by
    simp only [cachedCall, Bool.not_true]
    rw [if_neg (by simp)]
    rw [hmiss]
  refine ⟨by rw [h1], by rw [h1], ?_⟩
  rw [h1]
  set c1 := ((c.get key now).2).set key none ttl now with hc1
  have hcache : c1.cache =
      ((c.get key now).2).cache.filter (fun p => !(p.1 == key)) ++
        [(key, (none, now + ttl))] := rfl
  have hfind : c1.cache.find? (fun p => p.1 == key) =
      some (key, (none, now + ttl)) := by
    rw [hcache, List.find?_append]
    have hleft : (((c.get key now).2).cache.filter
        (fun p => !(p.1 == key))).find? (fun p => p.1 == key) = none := by
      rw [List.find?_eq_none]
      intro p hp
      simpa using (List.mem_filter.mp hp).2
    rw [hleft]
    simp
  by_cases hlt : now2 < now + ttl
  · have hget2 : c1.get key now2 = (none, c1) := by
      simp only [InMemoryCache.get, hfind]
      rw [if_pos hlt]
    simp only [cachedCall, Bool.not_true]
    rw [if_neg (by simp)]
    rw [hget2]
  · have hget2 : c1.get key now2 =
        (none, ⟨c1.cache.filter (fun p => !(p.1 == key))⟩) := by
      simp only [InMemoryCache.get, hfind]
      rw [if_neg hlt]
    simp only [cachedCall, Bool.not_true]
    rw [if_neg (by simp)]
    rw [hget2]
    have hsetset : (⟨c1.cache.filter (fun p => !(p.1 == key))⟩ :
        InMemoryCache).set key res2 ttl now2 = c1.set key res2 ttl now2 := by
      simp only [InMemoryCache.set]
      rw [List.filter_filter]
      simp
    rw [hsetset]

/-- C10 witness: starting from the empty cache, a first call whose
function returns `None` executes and a second identical call within the
TTL executes again. -/
theorem cached_none_reexecutes_witness :
    (cachedCall true ⟨[]⟩ "k" 0 none 100).1 = none ∧
    (cachedCall true ⟨[]⟩ "k" 0 none 100).2.2 = true ∧
    cachedCall true (cachedCall true ⟨[]⟩ "k" 0 none 100).2.1 "k" 1
        (some "v") 100 =
      (some "v",
       ((cachedCall true ⟨[]⟩ "k" 0 none 100).2.1).set "k" (some "v") 100 1,
       true) :=
  cached_none_reexecutes ⟨[]⟩ "k" 0 1 100 (some "v") rfl

/-! ## C8 — normalization: idempotence and order-independence -/

/-- `Char.ofNat` on a lowercase-letter code point. -/
theorem char_toNat_ofNat (n : Nat) (h1 : 97 ≤ n) (h2 : n ≤ 122) :
    (Char.ofNat n).toNat = n := by
  have hv : n.isValidChar := Or.inl (by omega)
  simp only [Char.ofNat, hv, dif_pos]
  simp only [Char.ofNatAux, Char.toNat]
  rfl

/-- ASCII lowering is idempotent. -/
theorem pyLowerChar_idem (c : Char) :
    pyLowerChar (pyLowerChar c) = pyLowerChar c := by
  by_cases h : 65 ≤ c.toNat ∧ c.toNat ≤ 90
  · unfold pyLowerChar
    rw [if_pos h]
    have ht : (Char.ofNat (c.toNat + 32)).toNat = c.toNat + 32 :=
      char_toNat_ofNat _ (by omega) (by omega)
    rw [if_neg (by rw [ht]; omega)]
  · unfold pyLowerChar
    rw [if_neg h, if_neg h]

/-- Every whitespace code point lies outside the lowercase-letter range:
it is at most 32 or at least 133. -/
theorem pyIsSpace_toNat {c : Char} (h : pyIsSpace c = true) :
    c.toNat ≤ 32 ∨ 133 ≤ c.toNat := by
  simp only [pyIsSpace, Bool.or_eq_true, Bool.and_eq_true, beq_iff_eq,
    decide_eq_true_eq] at h
  omega

/-- If lowering a character produces whitespace, the character was already
that whitespace character (lowering only moves `A–Z` to `a–z`). -/
theorem pyIsSpace_pyLowerChar {x : Char}
    (h : pyIsSpace (pyLowerChar x) = true) : pyLowerChar x = x := by
  by_cases hx : 65 ≤ x.toNat ∧ x.toNat ≤ 90
  · exfalso
    have ht : (pyLowerChar x).toNat = x.toNat + 32 := by
      unfold pyLowerChar
      rw [if_pos hx]
      exact char_toNat_ofNat _ (by omega) (by omega)
    have := pyIsSpace_toNat h
    omega
  · unfold pyLowerChar
    rw [if_neg hx]

/-- `strip` only keeps characters of the input. -/
theorem pyStrip_subset (l : List Char) : ∀ c ∈ pyStrip l, c ∈ l := by
  intro c hc
  unfold pyStrip at hc
  rw [List.mem_reverse] at hc
  have h1 := (List.dropWhile_sublist _).subset hc
  rw [List.mem_reverse] at h1
  exact (List.dropWhile_sublist _).subset h1

/-- `strip` of a list with no whitespace is the identity. -/
theorem pyStrip_eq_self {l : List Char}
    (h : ∀ c ∈ l, pyIsSpace c = false) : pyStrip l = l := by
  have hdrop : ∀ (m : List Char), (∀ c ∈ m, pyIsSpace c = false) →
      m.dropWhile pyIsSpace = m := by
    intro m hm
    cases m with
    | nil => rfl
    | cons a as =>
      rw [List.dropWhile_cons, if_neg]
      simp [hm a (List.mem_cons_self a as)]
  unfold pyStrip
  rw [hdrop l h, hdrop l.reverse (fun c hc => h c (List.mem_reverse.mp hc)),
    List.reverse_reverse]

/-- Unpacking membership in the normalization pipeline's output. -/
theorem mem_normChars {cs : List Char} {c : Char} (hc : c ∈ normChars cs) :
    (∃ x ∈ cs, c = pyLowerChar x) ∧ (c == '.') = false ∧
      (c == '-') = false ∧ (c == ' ') = false := by
  unfold normChars at hc
  rw [List.mem_filter] at hc
  obtain ⟨hc, hsp⟩ := hc
  rw [List.mem_filter] at hc
  obtain ⟨hc, hdash⟩ := hc
  rw [List.mem_filter] at hc
  obtain ⟨hc, hdot⟩ := hc
  have hmem := pyStrip_subset _ _ hc
  rw [List.mem_map] at hmem
  obtain ⟨x, hx, hxc⟩ := hmem
  exact ⟨⟨x, hx, hxc.symm⟩, by simpa using hdot, by simpa using hdash,
    by simpa using hsp⟩

/-- The normalization pipeline is idempotent on inputs whose only
whitespace is the space character. -/
theorem normChars_idem (cs : List Char)
    (hws : ∀ c ∈ cs, pyIsSpace c = true → c = ' ') :
    normChars (normChars cs) = normChars cs := by
  have hfix : ∀ c ∈ normChars cs, pyLowerChar c = c := by
    intro c hc
    obtain ⟨⟨x, _, rfl⟩, _⟩ := mem_normChars hc
    exact pyLowerChar_idem x
  have hnospace : ∀ c ∈ normChars cs, pyIsSpace c = false := by
    intro c hc
    obtain ⟨⟨x, hx, rfl⟩, _, _, hsp⟩ := mem_normChars hc
    by_contra hb
    have hb' : pyIsSpace (pyLowerChar x) = true := by
      revert hb
      cases pyIsSpace (pyLowerChar x) <;> simp
    have hfixx := pyIsSpace_pyLowerChar hb'
    rw [hfixx] at hb' hsp
    rw [hws x hx hb'] at hsp
    simp at hsp
  have hmap : (normChars cs).map pyLowerChar = normChars cs := by
    have hpt : ∀ a ∈ normChars cs, pyLowerChar a = id a :=
      fun a ha => hfix a ha
    have := List.map_congr_left hpt
    rwa [List.map_id] at this
  show (((pyStrip ((normChars cs).map pyLowerChar)).filter
      (fun c => !(c == '.'))).filter
      (fun c => !(c == '-'))).filter
      (fun c => !(c == ' ')) = normChars cs
  have hf1 : (normChars cs).filter (fun c => !(c == '.')) = normChars cs :=
    List.filter_eq_self.mpr
      (fun a ha => by simpa using (mem_normChars ha).2.1)
  have hf2 : (normChars cs).filter (fun c => !(c == '-')) = normChars cs :=
    List.filter_eq_self.mpr
      (fun a ha => by simpa using (mem_normChars ha).2.2.1)
  have hf3 : (normChars cs).filter (fun c => !(c == ' ')) = normChars cs :=
    List.filter_eq_self.mpr
      (fun a ha => by simpa using (mem_normChars ha).2.2.2)
  rw [hmap, pyStrip_eq_self hnospace, hf1, hf2, hf3]

/-- Idempotence at the level of whole skill names. -/
theorem normalizeSkill_idem (s : String)
    (hws : ∀ c ∈ s.data, pyIsSpace c = true → c = ' ') :
    normalizeSkill (normalizeSkill s) = normalizeSkill s := by
  show String.mk (normChars (String.mk (normChars s.data)).data) =
    String.mk (normChars s.data)
  exact congrArg String.mk (normChars_idem s.data hws)

/-- C8 counterexample.  The claim asserts idempotence for every input; the
skill name `".\tx"` (dot, tab, x) refutes it: the first pass strips
nothing (the ends are `.` and `x`), deletes the dot and leaves `"\tx"`,
whose *second* normalization strips the now-leading tab, giving `"x"`. -/
theorem normalize_idempotent_cex :
    normalizeSkill (normalizeSkill ".\tx") ≠ normalizeSkill ".\tx" ∧
    (normalizeSkills [".\tx"]).image normalizeSkill ≠
      normalizeSkills [".\tx"] := by
  constructor <;> decide

/-- C8 amended.  Normalization is idempotent on every skill list whose
names contain no whitespace other than plain spaces (in particular on all
ordinary skill names); it is order-independent — permuted input lists
yield equal sets — without restriction; and
`["React.js", "Node.js", "Python 3"]` normalizes to
`{"reactjs", "nodejs", "python3"}`. -/
theorem normalize_skills_props (skills l1 l2 : List String)
    (hperm : l1.Perm l2)
    (hws : ∀ s ∈ skills, ∀ c ∈ s.data, pyIsSpace c = true → c = ' ') :
    (normalizeSkills skills).image normalizeSkill = normalizeSkills skills ∧
    normalizeSkills l1 = normalizeSkills l2 ∧
    normalizeSkills ["React.js", "Node.js", "Python 3"] =
      {"reactjs", "nodejs", "python3"} := by
  refine ⟨?_, ?_, by decide⟩
  · apply Finset.ext
    intro a
    simp only [Finset.mem_image, normalizeSkills, List.mem_toFinset,
      List.mem_map]
    constructor
    · rintro ⟨b, ⟨s, hs, rfl⟩, rfl⟩
      exact ⟨s, hs, (normalizeSkill_idem s (hws s hs)).symm⟩
    · rintro ⟨s, hs, rfl⟩
      exact ⟨normalizeSkill s, ⟨s, hs, rfl⟩,
        normalizeSkill_idem s (hws s hs)⟩
  · apply Finset.ext
    intro a
    simp only [normalizeSkills, List.mem_toFinset, List.mem_map]
    constructor
    · rintro ⟨s, hs, rfl⟩
      exact ⟨s, hperm.mem_iff.mp hs, rfl⟩
    · rintro ⟨s, hs, rfl⟩
      exact ⟨s, hperm.mem_iff.mpr hs, rfl⟩

/-- C8 witness: the amended theorem on `["Python 3"]` (idempotence), the
permuted pair `["a","b"]`/`["b","a"]`, and the concrete scenario. -/
theorem normalize_skills_props_witness :
    (normalizeSkills ["Python 3"]).image normalizeSkill =
      normalizeSkills ["Python 3"] ∧
    normalizeSkills ["a", "b"] = normalizeSkills ["b", "a"] ∧
    normalizeSkills ["React.js", "Node.js", "Python 3"] =
      {"reactjs", "nodejs", "python3"} :=
  normalize_skills_props ["Python 3"] ["a", "b"] ["b", "a"] (by decide)
    (by decide)

/-! ## C7 — `match_percentage` -/

/-- Half-even rounding never rounds below the floor. -/
theorem roundHalfEven_ge {q : ℚ} {n : ℤ} (h : (n : ℚ) ≤ q) :
    n ≤ roundHalfEven q := by
  have hn : n ≤ ⌊q⌋ := Int.le_floor.mpr h
  unfold roundHalfEven
  split_ifs <;> omega

/-- Half-even rounding never rounds above an integer upper bound. -/
theorem roundHalfEven_le {q : ℚ} {n : ℤ} (h : q ≤ (n : ℚ)) :
    roundHalfEven q ≤ n := by
  have hfl : ⌊q⌋ ≤ n := by
    have := Int.floor_le_floor h
    rwa [Int.floor_intCast] at this
  have hfq : (⌊q⌋ : ℚ) ≤ q := Int.floor_le q
  unfold roundHalfEven
  split_ifs with h1 h2 h3
  · exact hfl
  · have h4 : (⌊q⌋ : ℚ) < (n : ℚ) := by linarith
    have h5 : ⌊q⌋ < n := by exact_mod_cast h4
    omega
  · exact hfl
  · have hr : q - ⌊q⌋ = 1/2 := le_antisymm (not_lt.mp h2) (not_lt.mp h1)
    have h4 : (⌊q⌋ : ℚ) < (n : ℚ) := by linarith
    have h5 : ⌊q⌋ < n := by exact_mod_cast h4
    omega

/-- `round(q, 1)` stays inside `[0, 100]` when `q` does. -/
theorem pyRound1_bounds {q : ℚ} (h0 : 0 ≤ q) (h100 : q ≤ 100) :
    0 ≤ pyRound1 q ∧ pyRound1 q ≤ 100 := by
  have hge : (0 : ℤ) ≤ roundHalfEven (q * 10) := roundHalfEven_ge
    (by push_cast; linarith)
  have hle : roundHalfEven (q * 10) ≤ (1000 : ℤ) := roundHalfEven_le
    (by push_cast; linarith)
  unfold pyRound1
  constructor
  · apply div_nonneg _ (by norm_num)
    exact_mod_cast hge
  · rw [div_le_iff (by norm_num : (0:ℚ) < 10)]
    calc (roundHalfEven (q * 10) : ℚ) ≤ (1000 : ℚ) := by exact_mod_cast hle
    _ = 100 * 10 := by norm_num

/-- `round(100.0, 1) = 100.0`. -/
theorem pyRound1_hundred : pyRound1 100 = 100 := by
  have hf : ⌊(100 * 10 : ℚ)⌋ = 1000 := by
    rw [Int.floor_eq_iff] <;> norm_num
  rw [pyRound1, roundHalfEven, hf]
  norm_num

/-- C7 amended.  `analyze_gaps` computes `matchPercentage` as
`round((|matchedRequired| / |requiredSkills|) * 100, 1)` — i.e.
100 × |matchedRequired| / |requiredSkills| *rounded half-even to one
decimal*, not that exact ratio — when `requiredSkills` is non-empty; it is
exactly 100 when `requiredSkills` is empty; the matched-required set never
exceeds the required set; and the result always lies in `[0, 100]`. -/
theorem match_percentage_spec (cvNames requiredNames preferredNames :
    List String) :
    ((analyzeGaps cvNames requiredNames
        preferredNames).totalRequiredSkills = 0 →
      (analyzeGaps cvNames requiredNames
        preferredNames).matchPercentage = 100) ∧
    (0 < (analyzeGaps cvNames requiredNames
        preferredNames).totalRequiredSkills →
      (analyzeGaps cvNames requiredNames preferredNames).matchPercentage =
        pyRound1 (100 * ((findMatches (normalizeSkills cvNames)
            (normalizeSkills requiredNames) (85/100)).card : ℚ) /
          ((normalizeSkills requiredNames).card : ℚ))) ∧
    (findMatches (normalizeSkills cvNames) (normalizeSkills requiredNames)
        (85/100)).card ≤
      (analyzeGaps cvNames requiredNames
        preferredNames).totalRequiredSkills ∧
    0 ≤ (analyzeGaps cvNames requiredNames preferredNames).matchPercentage ∧
    (analyzeGaps cvNames requiredNames preferredNames).matchPercentage
      ≤ 100 := by
  have hsub : (findMatches (normalizeSkills cvNames)
      (normalizeSkills requiredNames) (85/100)).card ≤
      (normalizeSkills requiredNames).card :=
    Finset.card_le_card (Finset.filter_subset _ _)
  have htot : (analyzeGaps cvNames requiredNames
      preferredNames).totalRequiredSkills =
      (normalizeSkills requiredNames).card := rfl
  have hmp : (analyzeGaps cvNames requiredNames
      preferredNames).matchPercentage =
      pyRound1 (if 0 < (normalizeSkills requiredNames).card then
        ((findMatches (normalizeSkills cvNames)
          (normalizeSkills requiredNames) (85/100)).card : ℚ) /
          ((normalizeSkills requiredNames).card : ℚ) * 100
        else 100) := rfl
  by_cases ht : 0 < (normalizeSkills requiredNames).card
  · have hratio0 : (0 : ℚ) ≤
        ((findMatches (normalizeSkills cvNames)
          (normalizeSkills requiredNames) (85/100)).card : ℚ) /
          ((normalizeSkills requiredNames).card : ℚ) * 100 := by
      apply mul_nonneg _ (by norm_num)
      apply div_nonneg (by positivity) (by positivity)
    have hratio100 :
        ((findMatches (normalizeSkills cvNames)
          (normalizeSkills requiredNames) (85/100)).card : ℚ) /
          ((normalizeSkills requiredNames).card : ℚ) * 100 ≤ 100 := by
      have hq : ((findMatches (normalizeSkills cvNames)
          (normalizeSkills requiredNames) (85/100)).card : ℚ) /
          ((normalizeSkills requiredNames).card : ℚ) ≤ 1 := by
        rw [div_le_one (by exact_mod_cast ht)]
        exact_mod_cast hsub
      linarith
    refine ⟨fun h0 => absurd (htot ▸ h0) (by omega), fun _ => ?_, ?_, ?_, ?_⟩
    · rw [hmp, if_pos ht]
      exact congrArg pyRound1 (by ring)
    · rw [htot]; exact hsub
    · rw [hmp, if_pos ht]
      exact (pyRound1_bounds hratio0 hratio100).1
    · rw [hmp, if_pos ht]
      exact (pyRound1_bounds hratio0 hratio100).2
  · have ht0 : (normalizeSkills requiredNames).card = 0 := by omega
    have hm0 : (findMatches (normalizeSkills cvNames)
        (normalizeSkills requiredNames) (85/100)).card = 0 := by omega
    refine ⟨fun _ => ?_, fun hpos => absurd (htot ▸ hpos) (by omega),
      by omega, ?_, ?_⟩
    · rw [hmp, if_neg ht]
      exact pyRound1_hundred
    · rw [hmp, if_neg ht, pyRound1_hundred]
      norm_num
    · rw [hmp, if_neg ht, pyRound1_hundred]

/-- C7 counterexample.  The claim states `matchPercentage` *equals*
100 × |matchedRequired| / |requiredSkills|.  With candidate skills
`{"a","b"}` and required skills `{"a","b","c"}` the code matches 2 of 3
required skills, stores `round((2/3)*100, 1) = 66.7 = 667/10`, and
`667/10 ≠ 100 × 2/3 = 200/3`. -/
theorem match_percentage_round_cex :
    (analyzeGaps ["a", "b"] ["a", "b", "c"] []).totalRequiredSkills = 3 ∧
    (findMatches (normalizeSkills ["a", "b"])
      (normalizeSkills ["a", "b", "c"]) (85/100)).card = 2 ∧
    (analyzeGaps ["a", "b"] ["a", "b", "c"] []).matchPercentage = 667/10 ∧
    (analyzeGaps ["a", "b"] ["a", "b", "c"] []).matchPercentage ≠
      100 * 2 / 3 := by
  have hra : pyRatio "c".data "a".data = 0 := by
    have hd : "c".data = ['c'] := rfl
    have ha : "a".data = ['a'] := rfl
    rw [pyRatio, hd, ha]
    norm_num [show matchingTotal ['c'] ['a'] 3 0 1 0 1 = 0 from by decide]
  have hrb : pyRatio "c".data "b".data = 0 := by
    have hd : "c".data = ['c'] := rfl
    have hb : "b".data = ['b'] := rfl
    rw [pyRatio, hd, hb]
    norm_num [show matchingTotal ['c'] ['b'] 3 0 1 0 1 = 0 from by decide]
  have hcv : normalizeSkills ["a", "b"] = ({"a", "b"} : Finset String) := by
    decide
  have hfm : findMatches (normalizeSkills ["a", "b"])
      (normalizeSkills ["a", "b", "c"]) (85/100) =
      ({"a", "b"} : Finset String) := by
    have hreq3 : normalizeSkills ["a", "b", "c"] =
        insert "a" (insert "b" ({"c"} : Finset String)) := by decide
    have hpa : "a" ∈ normalizeSkills ["a", "b"] ∨
        ∃ c ∈ normalizeSkills ["a", "b"],
          (85:ℚ)/100 ≤ pyRatio "a".data c.data := Or.inl (by decide)
    have hpb : "b" ∈ normalizeSkills ["a", "b"] ∨
        ∃ c ∈ normalizeSkills ["a", "b"],
          (85:ℚ)/100 ≤ pyRatio "b".data c.data := Or.inl (by decide)
    have hpc : ¬("c" ∈ normalizeSkills ["a", "b"] ∨
        ∃ c ∈ normalizeSkills ["a", "b"],
          (85:ℚ)/100 ≤ pyRatio "c".data c.data) := by
      rintro (hmem | ⟨c, hc, hle⟩)
      · exact absurd hmem (by decide)
      · rw [hcv] at hc
        simp only [Finset.mem_insert, Finset.mem_singleton] at hc
        rcases hc with rfl | rfl
        · rw [hra] at hle; norm_num at hle
        · rw [hrb] at hle; norm_num at hle
    unfold findMatches
    rw [hreq3, Finset.filter_insert, if_pos hpa, Finset.filter_insert,
      if_pos hpb, Finset.filter_singleton, if_neg hpc]
    decide
  have hmp : (analyzeGaps ["a", "b"] ["a", "b", "c"] []).matchPercentage =
      pyRound1 ((2 : ℚ) / 3 * 100) := by
    show pyRound1 (if 0 < (normalizeSkills ["a", "b", "c"]).card then
        ((findMatches (normalizeSkills ["a", "b"])
          (normalizeSkills ["a", "b", "c"]) (85/100)).card : ℚ) /
          ((normalizeSkills ["a", "b", "c"]).card : ℚ) * 100
        else 100) = pyRound1 ((2 : ℚ) / 3 * 100)
    rw [hfm]
    norm_num [show (normalizeSkills ["a", "b", "c"]).card = 3 from by decide,
      show ({"a", "b"} : Finset String).card = 2 from by decide]
  have hround : pyRound1 ((2 : ℚ) / 3 * 100) = 667/10 := by
    have hf : ⌊(2/3 * 100 * 10 : ℚ)⌋ = 666 := by
      rw [Int.floor_eq_iff] <;> norm_num
    rw [pyRound1, roundHalfEven, hf]
    norm_num
  refine ⟨by decide, by rw [hfm]; decide, by rw [hmp, hround], ?_⟩
  rw [hmp, hround]
  norm_num

/-- C7 witness: the amended theorem applied to a concrete no-required-
skills call (percentage 100) and to the counterexample's inputs (bounds),
with the hypotheses evaluated away. -/
theorem match_percentage_spec_witness :
    (analyzeGaps ["a"] [] []).matchPercentage = 100 ∧
    0 ≤ (analyzeGaps ["a", "b"] ["a", "b", "c"] []).matchPercentage ∧
    (analyzeGaps ["a", "b"] ["a", "b", "c"] []).matchPercentage ≤ 100 :=
  ⟨(match_percentage_spec ["a"] [] []).1 (by decide),
   (match_percentage_spec ["a", "b"] ["a", "b", "c"] []).2.2.2.1,
   (match_percentage_spec ["a", "b"] ["a", "b", "c"] []).2.2.2.2⟩

end S2P
